import Mathlib

/-!
Shallow embedding of the polkax402 contracts:
`src/contracts/httpusd.rs` (PSP22 token with X402 `transfer_with_authorization`)
and `src/contracts/lib.rs` (X402 payment executor `execute_payment`).

Machine integers (`u128` balances, `u16` fee rates, `u64` timestamps) are
modelled as `Nat` with explicit bound checks where the Rust code uses checked
arithmetic.  The chain environment (hash primitives, sr25519 verification,
native-balance transfers) is an abstract parameter.  Storage `Mapping`s are
total functions with the `unwrap_or` default.  Stateful messages become
state-passing functions returning the post-state together with an `Except`
result, mirroring the Rust `Result`.
-/

namespace Polkax402

/-- An ink! `AccountId`: 32 raw bytes, modelled as a byte list.  Its SCALE
encoding is exactly those raw bytes. -/
abbrev AccountId := List Nat

/-- Largest `u128` value, `2 ^ 128 - 1`. -/
def U128_MAX : Nat := 340282366920938463463374607431768211455

/-- Fixed-width little-endian byte encoding (SCALE encoding of an unsigned
fixed-width integer). -/
def encodeLE (width value : Nat) : List Nat :=
  (List.range width).map fun i => value / 256 ^ i % 256

/-- SCALE encoding of a `u128` amount (16 bytes, little-endian). -/
def encodeU128 (v : Nat) : List Nat := encodeLE 16 v

/-- SCALE encoding of a `u64` timestamp (8 bytes, little-endian). -/
def encodeU64 (v : Nat) : List Nat := encodeLE 8 v

/-- Abstract chain environment: the Blake2x256 and Keccak256 hash primitives
and the sr25519 signature-verification oracle
(`sr25519Verify signature messageHash publicKey`). -/
structure Chain where
  blake2x256 : List Nat → List Nat
  keccak256 : List Nat → List Nat
  sr25519Verify : List Nat → List Nat → List Nat → Bool

/-- PSP22 error types of `httpusd.rs`. -/
inductive PSP22Error where
  | Custom (s : String)
  | InsufficientBalance
  | InsufficientAllowance
  | ZeroRecipientAddress
  | ZeroSenderAddress
  deriving DecidableEq, Repr

/-- X402-specific errors of `httpusd.rs` (`Error`). -/
inductive HError where
  | PSP22 (e : PSP22Error)
  | InvalidSignature
  | PaymentExpired
  | NonceAlreadyUsed
  | TransferFailed
  deriving DecidableEq, Repr

/-- Errors of the payment executor in `lib.rs` (`Error`). -/
inductive XError where
  | InvalidSignature
  | PaymentExpired
  | NonceAlreadyUsed
  | InsufficientBalance
  | TransferFailed
  | InvalidRecipient
  | ZeroAmount
  deriving DecidableEq, Repr

/-- `verify_signature`, identical in both contracts: build the signed message
(SCALE encodings of `from`, `to`, `amount`, the raw nonce bytes, `valid_until`),
hash it with Blake2x256, reject a signature whose length is not 64 bytes,
otherwise run sr25519 verification with the account's raw bytes as the public
key. -/
def verify_signature (c : Chain) (fromA toA : AccountId) (amount : Nat)
    (nonce : List Nat) (valid_until : Nat) (signature : List Nat) : Bool :=
  let message := fromA ++ toA ++ encodeU128 amount ++ nonce ++ encodeU64 valid_until
  let hash := c.blake2x256 message
  if signature.length ≠ 64 then false
  else c.sr25519Verify signature hash fromA

/-- Step 5 of both pipelines: `amount.checked_mul(fee_bps).and_then(checked_div 10000)`
followed by `amount.checked_sub(fee)`.  `none` models the `ok_or(...)?` error
exits (the division by the nonzero constant 10000 itself never fails). -/
def compute_fee (amount fee_bps : Nat) : Option (Nat × Nat) :=
  if U128_MAX < amount * fee_bps then none
  else
    let facilitator_fee := amount * fee_bps / 10000
    if amount < facilitator_fee then none
    else some (facilitator_fee, amount - facilitator_fee)

/-- Storage of the `Httpusd` contract (`httpusd.rs`). -/
structure Httpusd where
  total_supply : Nat
  balances : AccountId → Nat
  allowances : AccountId × AccountId → Nat
  used_nonces : List Nat → Bool
  owner : AccountId
  facilitator_fee_bps : Nat

namespace Httpusd

/-- `balance_of`: stored balance or 0 (`unwrap_or(0)` is the function default). -/
def balance_of (s : Httpusd) (ownerA : AccountId) : Nat := s.balances ownerA

/-- `allowance`: stored allowance or 0. -/
def allowance (s : Httpusd) (ownerA spender : AccountId) : Nat :=
  s.allowances (ownerA, spender)

/-- `compute_nonce_hash`: Blake2x256 of the account's raw bytes followed by the
nonce's UTF-8 bytes. -/
def compute_nonce_hash (c : Chain) (fromA : AccountId) (nonce : List Nat) : List Nat :=
  c.blake2x256 (fromA ++ nonce)

/-- Internal transfer helper `transfer_from_to`: check `from`'s balance, debit
`from`, then checked-add the credit to `to` (which reads `to`'s balance after
the debit was stored).  On credit overflow the function returns the
`Custom "Overflow"` error with the debit already written. -/
def transfer_from_to (s : Httpusd) (fromA toA : AccountId) (value : Nat) :
    Httpusd × Except HError Unit :=
  let from_balance := balance_of s fromA
  if from_balance < value then (s, .error (.PSP22 .InsufficientBalance))
  else
    let s1 : Httpusd :=
      { s with balances := Function.update s.balances fromA (from_balance - value) }
    let to_balance := balance_of s1 toA
    if U128_MAX < to_balance + value then (s1, .error (.PSP22 (.Custom "Overflow")))
    else
      ({ s1 with balances := Function.update s1.balances toA (to_balance + value) },
       .ok ())

/-- Standard PSP22 `transfer`; the caller is the debited account. -/
def transfer (s : Httpusd) (caller toA : AccountId) (value : Nat) :
    Httpusd × Except HError Unit :=
  transfer_from_to s caller toA value

/-- `approve`: store the allowance for (caller, spender). -/
def approve (s : Httpusd) (caller spender : AccountId) (value : Nat) :
    Httpusd × Except HError Unit :=
  ({ s with allowances := Function.update s.allowances (caller, spender) value },
   .ok ())

/-- `transfer_from`: allowance-gated transfer. -/
def transfer_from (s : Httpusd) (caller fromA toA : AccountId) (value : Nat) :
    Httpusd × Except HError Unit :=
  let allowanceV := allowance s fromA caller
  if allowanceV < value then (s, .error (.PSP22 .InsufficientAllowance))
  else
    let s1 : Httpusd :=
      { s with allowances := Function.update s.allowances (fromA, caller) (allowanceV - value) }
    transfer_from_to s1 fromA toA value

/-- `transfer_with_authorization`: the X402 pipeline of `httpusd.rs`.
`current_time` is `env().block_timestamp()`; the fee goes to the stored
`owner`.  Step 8's fee transfer is best-effort: its error is discarded. -/
def transfer_with_authorization (c : Chain) (current_time : Nat) (s : Httpusd)
    (fromA toA : AccountId) (amount : Nat) (valid_until : Nat)
    (nonce signature : List Nat) : Httpusd × Except HError Unit :=
  if valid_until < current_time then (s, .error .PaymentExpired)
  else
    let nonce_hash := compute_nonce_hash c fromA nonce
    if s.used_nonces nonce_hash = true then (s, .error .NonceAlreadyUsed)
    else if verify_signature c fromA toA amount nonce valid_until signature = false then
      (s, .error .InvalidSignature)
    else if amount = 0 then (s, .error (.PSP22 .InsufficientBalance))
    else
      match compute_fee amount s.facilitator_fee_bps with
      | none => (s, .error (.PSP22 .InsufficientBalance))
      | some (facilitator_fee, net_amount) =>
        let s1 : Httpusd :=
          { s with used_nonces := Function.update s.used_nonces nonce_hash true }
        match transfer_from_to s1 fromA toA net_amount with
        | (s2, .error e) => (s2, .error e)
        | (s2, .ok _) =>
          if 0 < facilitator_fee then
            ((transfer_from_to s2 fromA s2.owner facilitator_fee).1, .ok ())
          else (s2, .ok ())

/-- `is_nonce_used` read-only probe. -/
def is_nonce_used (c : Chain) (s : Httpusd) (fromA : AccountId) (nonce : List Nat) : Bool :=
  s.used_nonces (compute_nonce_hash c fromA nonce)

/-- `get_facilitator_fee`. -/
def get_facilitator_fee (s : Httpusd) : Nat := s.facilitator_fee_bps

/-- `set_facilitator_fee`: owner-gated; stores `fee_bps` unchanged. -/
def set_facilitator_fee (s : Httpusd) (caller : AccountId) (fee_bps : Nat) :
    Httpusd × Except HError Unit :=
  if caller ≠ s.owner then (s, .error (.PSP22 (.Custom "Not owner")))
  else ({ s with facilitator_fee_bps := fee_bps }, .ok ())

end Httpusd

/-- Result record of a successful `execute_payment` (`lib.rs`). -/
structure PaymentResult where
  success : Bool
  block_number : Nat
  nonce : List Nat
  deriving DecidableEq, Repr

/-- Storage of the `X402PaymentExecutor` contract (`lib.rs`). -/
structure X402PaymentExecutor where
  used_nonces : List Nat → Bool
  owner : AccountId
  facilitator_fee_bps : Nat

namespace X402PaymentExecutor

/-- `compute_nonce_hash` of the executor: Keccak256 of account bytes ++ nonce bytes. -/
def compute_nonce_hash (c : Chain) (fromA : AccountId) (nonce : List Nat) : List Nat :=
  c.keccak256 (fromA ++ nonce)

/-- `execute_payment`: the X402 pipeline of `lib.rs`.  `envTransferOk to v`
abstracts whether `env().transfer(to, v)` of the native balance succeeds;
the executor's own storage holds no balances, so only the nonce registry is
state here.  Step 8's fee transfer result is discarded and does not touch
executor storage. -/
def execute_payment (c : Chain) (current_time block_number : Nat)
    (envTransferOk : AccountId → Nat → Bool) (s : X402PaymentExecutor)
    (fromA toA : AccountId) (amount : Nat) (nonce : List Nat)
    (valid_until : Nat) (signature : List Nat) :
    X402PaymentExecutor × Except XError PaymentResult :=
  if valid_until < current_time then (s, .error .PaymentExpired)
  else
    let nonce_hash := compute_nonce_hash c fromA nonce
    if s.used_nonces nonce_hash = true then (s, .error .NonceAlreadyUsed)
    else if verify_signature c fromA toA amount nonce valid_until signature = false then
      (s, .error .InvalidSignature)
    else if amount = 0 then (s, .error .ZeroAmount)
    else
      match compute_fee amount s.facilitator_fee_bps with
      | none => (s, .error .InsufficientBalance)
      | some (_facilitator_fee, net_amount) =>
        let s1 : X402PaymentExecutor :=
          { s with used_nonces := Function.update s.used_nonces nonce_hash true }
        if envTransferOk toA net_amount = false then (s1, .error .TransferFailed)
        else (s1, .ok { success := true, block_number := block_number, nonce := nonce })

/-- `is_nonce_used` read-only probe of the executor. -/
def is_nonce_used (c : Chain) (s : X402PaymentExecutor) (fromA : AccountId)
    (nonce : List Nat) : Bool :=
  s.used_nonces (compute_nonce_hash c fromA nonce)

/-- `get_facilitator_fee` of the executor. -/
def get_facilitator_fee (s : X402PaymentExecutor) : Nat := s.facilitator_fee_bps

/-- `set_facilitator_fee` of the executor: owner-gated; stores `fee_bps`
unchanged. -/
def set_facilitator_fee (s : X402PaymentExecutor) (caller : AccountId) (fee_bps : Nat) :
    X402PaymentExecutor × Except XError Unit :=
  if caller ≠ s.owner then (s, .error .InvalidRecipient)
  else ({ s with facilitator_fee_bps := fee_bps }, .ok ())

end X402PaymentExecutor

/-- The state-mutating public messages of the `Httpusd` contract. -/
inductive Op where
  | transferOp (caller toA : AccountId) (value : Nat)
  | approveOp (caller spender : AccountId) (value : Nat)
  | transferFromOp (caller fromA toA : AccountId) (value : Nat)
  | transferWithAuthorizationOp (current_time : Nat) (fromA toA : AccountId)
      (amount : Nat) (valid_until : Nat) (nonce signature : List Nat)
  | setFacilitatorFeeOp (caller : AccountId) (fee_bps : Nat)

/-- Post-state of one `Httpusd` message. -/
def applyOp (c : Chain) (s : Httpusd) : Op → Httpusd
  | .transferOp caller toA value => (Httpusd.transfer s caller toA value).1
  | .approveOp caller spender value => (Httpusd.approve s caller spender value).1
  | .transferFromOp caller fromA toA value =>
      (Httpusd.transfer_from s caller fromA toA value).1
  | .transferWithAuthorizationOp t fromA toA amount vu nonce sig =>
      (Httpusd.transfer_with_authorization c t s fromA toA amount vu nonce sig).1
  | .setFacilitatorFeeOp caller fee_bps =>
      (Httpusd.set_facilitator_fee s caller fee_bps).1

/-- The state-mutating public messages of the executor contract. -/
inductive XOp where
  | executePaymentOp (current_time block_number : Nat)
      (envTransferOk : AccountId → Nat → Bool) (fromA toA : AccountId)
      (amount : Nat) (nonce : List Nat) (valid_until : Nat) (signature : List Nat)
  | setFacilitatorFeeOp (caller : AccountId) (fee_bps : Nat)

/-- Post-state of one executor message. -/
def applyXOp (c : Chain) (s : X402PaymentExecutor) : XOp → X402PaymentExecutor
  | .executePaymentOp t bn envT fromA toA amount nonce vu sig =>
      (X402PaymentExecutor.execute_payment c t bn envT s fromA toA amount nonce vu sig).1
  | .setFacilitatorFeeOp caller fee_bps =>
      (X402PaymentExecutor.set_facilitator_fee s caller fee_bps).1

/-- A concrete chain environment for concrete evaluations: constant hash
functions and an sr25519 oracle that accepts everything. -/
def chain0 : Chain where
  blake2x256 := fun _ => List.replicate 32 0
  keccak256 := fun _ => List.replicate 32 1
  sr25519Verify := fun _ _ _ => true



/-! ## Helper lemmas -/

namespace Httpusd

/-- `transfer_from_to` never touches the nonce registry. -/
lemma transfer_from_to_used_nonces (s : Httpusd) (fromA toA : AccountId) (v : Nat) :
    ((transfer_from_to s fromA toA v).1).used_nonces = s.used_nonces := by
  unfold transfer_from_to
  dsimp only
  split
  · rfl
  · split <;> rfl

/-- `transfer_from_to` never changes the stored owner. -/
lemma transfer_from_to_owner (s : Httpusd) (fromA toA : AccountId) (v : Nat) :
    ((transfer_from_to s fromA toA v).1).owner = s.owner := by
  unfold transfer_from_to
  dsimp only
  split
  · rfl
  · split <;> rfl

/-- Success shape of `transfer_from_to` for distinct accounts with sufficient
balance and no credit overflow. -/
lemma transfer_from_to_ok (s : Httpusd) (fromA toA : AccountId) (v : Nat)
    (h1 : v ≤ s.balances fromA) (hne : toA ≠ fromA)
    (h2 : s.balances toA + v ≤ U128_MAX) :
    transfer_from_to s fromA toA v =
      ({ s with balances := Function.update (Function.update s.balances fromA (s.balances fromA - v)) toA (s.balances toA + v) }, .ok ()) := by
  have hc1 : ¬ (s.balances fromA < v) := by omega
  simp only [transfer_from_to, balance_of, if_neg hc1]
  rw [Function.update_noteq hne]
  have hc2 : ¬ (U128_MAX < s.balances toA + v) := by omega
  rw [if_neg hc2]

end Httpusd

/-- The fee is at most the amount whenever the basis-point rate is at most
10000. -/
lemma fee_le_of_bps_le (amount bps : Nat) (h : bps ≤ 10000) :
    amount * bps / 10000 ≤ amount := by
  calc amount * bps / 10000 ≤ amount * 10000 / 10000 :=
        Nat.div_le_div_right (Nat.mul_le_mul_left amount h)
    _ = amount := Nat.mul_div_cancel amount (by norm_num)

/-- Success shape of `compute_fee`. -/
lemma compute_fee_some (amount bps : Nat) (hmul : amount * bps ≤ U128_MAX)
    (hfee : amount * bps / 10000 ≤ amount) :
    compute_fee amount bps =
      some (amount * bps / 10000, amount - amount * bps / 10000) := by
  have hc1 : ¬ (U128_MAX < amount * bps) := by omega
  have hc2 : ¬ (amount < amount * bps / 10000) := by omega
  simp only [compute_fee, if_neg hc1, if_neg hc2]

/-- Setting an already-true flag keeps every true flag true. -/
lemma update_true_mono (f : List Nat → Bool) (a k : List Nat) (h : f k = true) :
    Function.update f a true k = true := by
  by_cases hk : k = a <;> simp [Function.update_apply, hk, h]

/-- Two functions agreeing off three points, whose values at those points have
equal sums, have equal sums over every finite set containing the three
points. -/
lemma sum_eq_of_three_frame (g h : AccountId → Nat) (x y z : AccountId)
    (hxy : x ≠ y) (hxz : x ≠ z) (hyz : y ≠ z)
    (hframe : ∀ a, a ≠ x → a ≠ y → a ≠ z → h a = g a)
    (h3 : h x + h y + h z = g x + g y + g z) (S : Finset AccountId)
    (hx : x ∈ S) (hy : y ∈ S) (hz : z ∈ S) :
    Finset.sum S h = Finset.sum S g := by
  have hsub : ({x, y, z} : Finset AccountId) ⊆ S := by
    intro a ha
    simp only [Finset.mem_insert, Finset.mem_singleton] at ha
    rcases ha with rfl | rfl | rfl <;> assumption
  have hTh : Finset.sum ({x, y, z} : Finset AccountId) h = h x + (h y + h z) := by
    rw [Finset.sum_insert (by simp [hxy, hxz]), Finset.sum_insert (by simp [hyz]),
      Finset.sum_singleton]
  have hTg : Finset.sum ({x, y, z} : Finset AccountId) g = g x + (g y + g z) := by
    rw [Finset.sum_insert (by simp [hxy, hxz]), Finset.sum_insert (by simp [hyz]),
      Finset.sum_singleton]
  have hrest : Finset.sum (S \ ({x, y, z} : Finset AccountId)) h =
      Finset.sum (S \ ({x, y, z} : Finset AccountId)) g := by
    apply Finset.sum_congr rfl
    intro a ha
    rw [Finset.mem_sdiff] at ha
    have ha2 := ha.2
    simp only [Finset.mem_insert, Finset.mem_singleton, not_or] at ha2
    exact hframe a ha2.1 ha2.2.1 ha2.2.2
  have hsd : Finset.sum (S \ ({x, y, z} : Finset AccountId)) h +
      Finset.sum ({x, y, z} : Finset AccountId) h = Finset.sum S h :=
    Finset.sum_sdiff hsub
  have hsd2 : Finset.sum (S \ ({x, y, z} : Finset AccountId)) g +
      Finset.sum ({x, y, z} : Finset AccountId) g = Finset.sum S g :=
    Finset.sum_sdiff hsub
  omega

/-- A signature whose length is not 64 bytes always fails verification. -/
lemma verify_signature_bad_length (c : Chain) (fromA toA : AccountId)
    (amount : Nat) (nonce : List Nat) (valid_until : Nat) (signature : List Nat)
    (h : signature.length ≠ 64) :
    verify_signature c fromA toA amount nonce valid_until signature = false := by
  simp only [verify_signature]
  rw [if_pos h]



/-! ## Claim theorems -/

/-- Claim C10: a self-transfer `transfer_from_to a a v` with sufficient balance
(and a balance that is a representable `u128` value) succeeds and leaves the
whole state, in particular every balance, exactly unchanged. -/
theorem c10_self_transfer (s : Httpusd) (a : AccountId) (v : Nat)
    (hv : v ≤ s.balances a) (hmax : s.balances a ≤ U128_MAX) :
    Httpusd.transfer_from_to s a a v = (s, .ok ()) := by
  have hc1 : ¬ (s.balances a < v) := by omega
  simp only [Httpusd.transfer_from_to, Httpusd.balance_of, if_neg hc1,
    Function.update_same]
  have hc2 : ¬ (U128_MAX < s.balances a - v + v) := by omega
  rw [if_neg hc2]
  have hsum : s.balances a - v + v = s.balances a := by omega
  rw [hsum, Function.update_idem, Function.update_eq_self]

/-- Claim C10 witness: a concrete self-transfer of 5 out of a balance of 7. -/
theorem c10_self_transfer_witness :
    Httpusd.transfer_from_to ⟨7, fun _ => 7, fun _ => 0, fun _ => false, [3], 100⟩ [1] [1] 5 =
      (⟨7, fun _ => 7, fun _ => 0, fun _ => false, [3], 100⟩, .ok ()) :=
  c10_self_transfer ⟨7, fun _ => 7, fun _ => 0, fun _ => false, [3], 100⟩ [1] 5
    (by decide) (by decide)

/-- Claim C7: the fee computation is `fee = floor(amount * feeBps / 10000)`
with the overflow-checked multiply before the divide and `net = amount - fee`;
in particular `amount = 1000, feeBps = 100` gives `fee = 10, net = 990`, and
`feeBps = 0` gives `fee = 0, net = amount`. -/
theorem c7_fee_computation :
    (∀ amount bps : Nat, amount * bps ≤ U128_MAX → bps ≤ 10000 →
      compute_fee amount bps =
        some (amount * bps / 10000, amount - amount * bps / 10000)) ∧
    compute_fee 1000 100 = some (10, 990) ∧
    (∀ amount : Nat, compute_fee amount 0 = some (0, amount)) := by
  refine ⟨?_, by decide, ?_⟩
  · intro amount bps hmul hbps
    exact compute_fee_some amount bps hmul (fee_le_of_bps_le amount bps hbps)
  · intro amount
    have hc1 : ¬ (U128_MAX < amount * 0) := by simp
    have hc2 : ¬ (amount < amount * 0 / 10000) := by simp
    simp only [compute_fee, if_neg hc1, if_neg hc2]
    simp

/-- Claim C7 witness: the general formula applied at `amount = 1000`,
`feeBps = 100`. -/
theorem c7_fee_computation_witness :
    1000 * 100 ≤ U128_MAX ∧ (100 : Nat) ≤ 10000 ∧
    compute_fee 1000 100 = some (1000 * 100 / 10000, 1000 - 1000 * 100 / 10000) :=
  ⟨by decide, by decide, c7_fee_computation.1 1000 100 (by decide) (by decide)⟩

/-- Claim C8: a signature whose length is not exactly 64 bytes is always
rejected — `verify_signature` returns `false` (no exception is modelled since
the function is total), and the authorization pipeline, reached with an
unexpired payload and a fresh nonce, rejects with `InvalidSignature` leaving
the state unchanged. -/
theorem c8_bad_signature_length :
    (∀ (c : Chain) (fromA toA : AccountId) (amount : Nat) (nonce : List Nat)
        (vu : Nat) (sig : List Nat), sig.length ≠ 64 →
        verify_signature c fromA toA amount nonce vu sig = false) ∧
    (∀ (c : Chain) (t : Nat) (s : Httpusd) (fromA toA : AccountId)
        (amount vu : Nat) (nonce sig : List Nat), sig.length ≠ 64 →
        ¬ (vu < t) →
        s.used_nonces (Httpusd.compute_nonce_hash c fromA nonce) = false →
        Httpusd.transfer_with_authorization c t s fromA toA amount vu nonce sig =
          (s, .error .InvalidSignature)) := by
  constructor
  · intro c fromA toA amount nonce vu sig h
    exact verify_signature_bad_length c fromA toA amount nonce vu sig h
  · intro c t s fromA toA amount vu nonce sig hlen ht hused
    simp only [Httpusd.transfer_with_authorization]
    rw [if_neg ht]
    have hu : ¬ (s.used_nonces (Httpusd.compute_nonce_hash c fromA nonce) = true) := by
      simp [hused]
    rw [if_neg hu]
    rw [if_pos (verify_signature_bad_length c fromA toA amount nonce vu sig hlen)]

/-- Claim C8 witness: a 63-byte signature is rejected both by
`verify_signature` and by the pipeline. -/
theorem c8_bad_signature_length_witness :
    verify_signature chain0 [1] [2] 5 [7] 9 (List.replicate 63 0) = false ∧
    Httpusd.transfer_with_authorization chain0 0
        ⟨0, fun _ => 0, fun _ => 0, fun _ => false, [3], 100⟩ [1] [2] 5 9 [7]
        (List.replicate 63 0) =
      (⟨0, fun _ => 0, fun _ => 0, fun _ => false, [3], 100⟩, .error .InvalidSignature) :=
  ⟨c8_bad_signature_length.1 chain0 [1] [2] 5 [7] 9 (List.replicate 63 0) (by decide),
   c8_bad_signature_length.2 chain0 0 ⟨0, fun _ => 0, fun _ => 0, fun _ => false, [3], 100⟩
     [1] [2] 5 9 [7] (List.replicate 63 0) (by decide) (by decide) rfl⟩


/-- Claim C6 counterexample: the admin-set path does not clamp.  The owner
stores 20000 basis points and the rate read back is 20000, above 10000. -/
theorem c6_counterexample :
    (Httpusd.set_facilitator_fee ⟨0, fun _ => 0, fun _ => 0, fun _ => false, [3], 100⟩ [3] 20000).2 = .ok () ∧
    Httpusd.get_facilitator_fee (Httpusd.set_facilitator_fee ⟨0, fun _ => 0, fun _ => 0, fun _ => false, [3], 100⟩ [3] 20000).1 = 20000 ∧
    ¬ Httpusd.get_facilitator_fee (Httpusd.set_facilitator_fee ⟨0, fun _ => 0, fun _ => 0, fun _ => false, [3], 100⟩ [3] 20000).1 ≤ 10000 :=
  ⟨rfl, rfl, by decide⟩

/-- Claim C6 amended: in both contracts the admin-set path checks only the
caller against the stored owner and then stores the given `u16` value
unchanged — no clamping to `[0, 10000]` happens, so the stored rate can exceed
10000. -/
theorem c6_amended :
    (∀ (s : Httpusd) (caller : AccountId) (bps : Nat), caller = s.owner →
      Httpusd.set_facilitator_fee s caller bps =
        ({ s with facilitator_fee_bps := bps }, .ok ())) ∧
    (∀ (s : X402PaymentExecutor) (caller : AccountId) (bps : Nat), caller = s.owner →
      X402PaymentExecutor.set_facilitator_fee s caller bps =
        ({ s with facilitator_fee_bps := bps }, .ok ())) := by
  constructor
  · intro s caller bps h
    have hc : ¬ (caller ≠ s.owner) := by simp [h]
    simp only [Httpusd.set_facilitator_fee, if_neg hc]
  · intro s caller bps h
    have hc : ¬ (caller ≠ s.owner) := by simp [h]
    simp only [X402PaymentExecutor.set_facilitator_fee, if_neg hc]

/-- Claim C6 witness: the owner stores 20000 in both contracts. -/
theorem c6_amended_witness :
    Httpusd.set_facilitator_fee ⟨0, fun _ => 0, fun _ => 0, fun _ => false, [3], 100⟩ [3] 20000 =
      (⟨0, fun _ => 0, fun _ => 0, fun _ => false, [3], 20000⟩, .ok ()) ∧
    X402PaymentExecutor.set_facilitator_fee ⟨fun _ => false, [3], 100⟩ [3] 20000 =
      (⟨fun _ => false, [3], 20000⟩, .ok ()) :=
  ⟨c6_amended.1 ⟨0, fun _ => 0, fun _ => 0, fun _ => false, [3], 100⟩ [3] 20000 rfl,
   c6_amended.2 ⟨fun _ => false, [3], 100⟩ [3] 20000 rfl⟩

/-- Claim C9 counterexample: in `httpusd.rs` a zero-amount payload that passes
the expiry, nonce and signature checks is rejected with
`PSP22(InsufficientBalance)`, not with a `ZeroAmount` error (which does not
exist in that contract's error type). -/
theorem c9_counterexample :
    Httpusd.transfer_with_authorization chain0 0
        ⟨0, fun _ => 0, fun _ => 0, fun _ => false, [3], 100⟩ [1] [2] 0 10 [7]
        (List.replicate 64 0) =
      (⟨0, fun _ => 0, fun _ => 0, fun _ => false, [3], 100⟩,
       .error (.PSP22 .InsufficientBalance)) := rfl

/-- Claim C9 amended: a payload with `amount = 0` that passes the expiry,
nonce and signature checks is rejected before the nonce is committed, with the
state unchanged; the executor (`lib.rs`) rejects with `ZeroAmount`, while the
token contract (`httpusd.rs`) rejects with `PSP22(InsufficientBalance)`. -/
theorem c9_amended :
    (∀ (c : Chain) (t : Nat) (s : Httpusd) (fromA toA : AccountId) (vu : Nat)
        (nonce sig : List Nat), ¬ (vu < t) →
        s.used_nonces (Httpusd.compute_nonce_hash c fromA nonce) = false →
        verify_signature c fromA toA 0 nonce vu sig = true →
        Httpusd.transfer_with_authorization c t s fromA toA 0 vu nonce sig =
          (s, .error (.PSP22 .InsufficientBalance))) ∧
    (∀ (c : Chain) (t bn : Nat) (envT : AccountId → Nat → Bool)
        (s : X402PaymentExecutor) (fromA toA : AccountId) (vu : Nat)
        (nonce sig : List Nat), ¬ (vu < t) →
        s.used_nonces (X402PaymentExecutor.compute_nonce_hash c fromA nonce) = false →
        verify_signature c fromA toA 0 nonce vu sig = true →
        X402PaymentExecutor.execute_payment c t bn envT s fromA toA 0 nonce vu sig =
          (s, .error .ZeroAmount)) := by
  constructor
  · intro c t s fromA toA vu nonce sig ht hused hsig
    simp only [Httpusd.transfer_with_authorization]
    rw [if_neg ht]
    have hu : ¬ (s.used_nonces (Httpusd.compute_nonce_hash c fromA nonce) = true) := by
      simp [hused]
    rw [if_neg hu]
    have hv : ¬ (verify_signature c fromA toA 0 nonce vu sig = false) := by
      simp [hsig]
    rw [if_neg hv]
    simp
  · intro c t bn envT s fromA toA vu nonce sig ht hused hsig
    simp only [X402PaymentExecutor.execute_payment]
    rw [if_neg ht]
    have hu : ¬ (s.used_nonces (X402PaymentExecutor.compute_nonce_hash c fromA nonce) = true) := by
      simp [hused]
    rw [if_neg hu]
    have hv : ¬ (verify_signature c fromA toA 0 nonce vu sig = false) := by
      simp [hsig]
    rw [if_neg hv]
    simp

/-- Claim C9 witness: concrete zero-amount rejections in both contracts. -/
theorem c9_amended_witness :
    Httpusd.transfer_with_authorization chain0 0
        ⟨0, fun _ => 5, fun _ => 0, fun _ => false, [3], 100⟩ [1] [2] 0 10 [7]
        (List.replicate 64 0) =
      (⟨0, fun _ => 5, fun _ => 0, fun _ => false, [3], 100⟩,
       .error (.PSP22 .InsufficientBalance)) ∧
    X402PaymentExecutor.execute_payment chain0 0 1 (fun _ _ => true)
        ⟨fun _ => false, [3], 100⟩ [1] [2] 0 [7] 10 (List.replicate 64 0) =
      (⟨fun _ => false, [3], 100⟩, .error .ZeroAmount) :=
  ⟨c9_amended.1 chain0 0 ⟨0, fun _ => 5, fun _ => 0, fun _ => false, [3], 100⟩
     [1] [2] 10 [7] (List.replicate 64 0) (by decide) rfl (by decide),
   c9_amended.2 chain0 0 1 (fun _ _ => true) ⟨fun _ => false, [3], 100⟩
     [1] [2] 10 [7] (List.replicate 64 0) (by decide) rfl (by decide)⟩

/-- Claim C3 counterexample: with `from = [1]` holding 5 and every other
account holding `u128::MAX`, `transfer_from_to [1] [2] 1` fails with the
`Custom "Overflow"` error, yet `from`'s balance has already been debited from
5 to 4 — the two sides are partially applied. -/
theorem c3_counterexample :
    (Httpusd.transfer_from_to ⟨0, fun a => if a = [1] then 5 else U128_MAX, fun _ => 0, fun _ => false, [3], 0⟩ [1] [2] 1).2 =
      .error (.PSP22 (.Custom "Overflow")) ∧
    (Httpusd.transfer_from_to ⟨0, fun a => if a = [1] then 5 else U128_MAX, fun _ => 0, fun _ => false, [3], 0⟩ [1] [2] 1).1.balances [1] = 4 :=
  ⟨rfl, rfl⟩

/-- Claim C3 amended: when `transfer_from_to` returns an error, either the
balance check failed and the state is completely unchanged
(`InsufficientBalance`), or the credit overflowed `u128` and the debit of
`from` has already been applied while the credit has not
(`Custom "Overflow"`). -/
theorem c3_amended (s : Httpusd) (fromA toA : AccountId) (v : Nat) (e : HError)
    (herr : (Httpusd.transfer_from_to s fromA toA v).2 = .error e) :
    (s.balances fromA < v ∧ (Httpusd.transfer_from_to s fromA toA v).1 = s ∧
      e = .PSP22 .InsufficientBalance) ∨
    (v ≤ s.balances fromA ∧
      U128_MAX < Function.update s.balances fromA (s.balances fromA - v) toA + v ∧
      (Httpusd.transfer_from_to s fromA toA v).1 =
        { s with balances := Function.update s.balances fromA (s.balances fromA - v) } ∧
      e = .PSP22 (.Custom "Overflow")) := by
  by_cases h1 : s.balances fromA < v
  · left
    refine ⟨h1, ?_, ?_⟩
    · simp [Httpusd.transfer_from_to, Httpusd.balance_of, if_pos h1]
    · simp only [Httpusd.transfer_from_to, Httpusd.balance_of, if_pos h1] at herr
      exact ((Except.error.injEq _ _).mp herr).symm
  · by_cases h2 : U128_MAX <
        Function.update s.balances fromA (s.balances fromA - v) toA + v
    · right
      refine ⟨by omega, h2, ?_, ?_⟩
      · simp [Httpusd.transfer_from_to, Httpusd.balance_of, if_neg h1, if_pos h2]
      · simp only [Httpusd.transfer_from_to, Httpusd.balance_of, if_neg h1,
          if_pos h2] at herr
        exact ((Except.error.injEq _ _).mp herr).symm
    · exfalso
      simp [Httpusd.transfer_from_to, Httpusd.balance_of, if_neg h1, if_neg h2] at herr

/-- Claim C3 witness: the insufficient-balance alternative at a concrete
input: transferring 5 from an empty account changes nothing. -/
theorem c3_amended_witness :
    ((⟨0, fun _ => 0, fun _ => 0, fun _ => false, [3], 0⟩ : Httpusd).balances [1] < 5 ∧
      (Httpusd.transfer_from_to ⟨0, fun _ => 0, fun _ => 0, fun _ => false, [3], 0⟩ [1] [2] 5).1 =
        ⟨0, fun _ => 0, fun _ => 0, fun _ => false, [3], 0⟩ ∧
      (HError.PSP22 .InsufficientBalance) = .PSP22 .InsufficientBalance) ∨
    (5 ≤ (⟨0, fun _ => 0, fun _ => 0, fun _ => false, [3], 0⟩ : Httpusd).balances [1] ∧
      U128_MAX < Function.update (fun _ => (0 : Nat)) [1] ((fun _ => (0 : Nat)) [1] - 5) [2] + 5 ∧
      (Httpusd.transfer_from_to ⟨0, fun _ => 0, fun _ => 0, fun _ => false, [3], 0⟩ [1] [2] 5).1 =
        { (⟨0, fun _ => 0, fun _ => 0, fun _ => false, [3], 0⟩ : Httpusd) with
          balances := Function.update (fun _ => (0 : Nat)) [1] ((fun _ => (0 : Nat)) [1] - 5) } ∧
      (HError.PSP22 .InsufficientBalance) = .PSP22 (.Custom "Overflow")) :=
  c3_amended ⟨0, fun _ => 0, fun _ => 0, fun _ => false, [3], 0⟩ [1] [2] 5
    (.PSP22 .InsufficientBalance) rfl


/-- The nonce registry after `transfer_with_authorization` is either untouched
or equal to the registry with the payload's nonce key set to true. -/
lemma twa_used_nonces_cases (c : Chain) (t : Nat) (s : Httpusd)
    (fromA toA : AccountId) (amount vu : Nat) (nonce sig : List Nat) :
    ((Httpusd.transfer_with_authorization c t s fromA toA amount vu nonce sig).1).used_nonces =
      s.used_nonces ∨
    ((Httpusd.transfer_with_authorization c t s fromA toA amount vu nonce sig).1).used_nonces =
      Function.update s.used_nonces (Httpusd.compute_nonce_hash c fromA nonce) true := by
  by_cases h1 : vu < t
  · left
    simp [Httpusd.transfer_with_authorization, if_pos h1]
  by_cases h2 : s.used_nonces (Httpusd.compute_nonce_hash c fromA nonce) = true
  · left
    simp [Httpusd.transfer_with_authorization, if_neg h1, if_pos h2]
  by_cases h3 : verify_signature c fromA toA amount nonce vu sig = false
  · left
    simp [Httpusd.transfer_with_authorization, if_neg h1, if_neg h2, if_pos h3]
  by_cases h4 : amount = 0
  · left
    simp [Httpusd.transfer_with_authorization, if_neg h1, if_neg h2, if_neg h3, if_pos h4]
  cases hcf : compute_fee amount s.facilitator_fee_bps with
  | none =>
    left
    simp [Httpusd.transfer_with_authorization, if_neg h1, if_neg h2, if_neg h3, if_neg h4, hcf]
  | some p =>
    obtain ⟨fee, net⟩ := p
    right
    rcases hft : Httpusd.transfer_from_to
        { s with used_nonces :=
            Function.update s.used_nonces (Httpusd.compute_nonce_hash c fromA nonce) true }
        fromA toA net with ⟨s2, r2⟩
    have hs2 : s2.used_nonces =
        Function.update s.used_nonces (Httpusd.compute_nonce_hash c fromA nonce) true := by
      have h := Httpusd.transfer_from_to_used_nonces
        { s with used_nonces :=
            Function.update s.used_nonces (Httpusd.compute_nonce_hash c fromA nonce) true }
        fromA toA net
      rw [hft] at h
      exact h
    cases r2 with
    | error e =>
      simp only [Httpusd.transfer_with_authorization, if_neg h1, if_neg h2, if_neg h3,
        if_neg h4, hcf, hft]
      exact hs2
    | ok u =>
      simp only [Httpusd.transfer_with_authorization, if_neg h1, if_neg h2, if_neg h3,
        if_neg h4, hcf, hft]
      by_cases h5 : 0 < fee
      · rw [if_pos h5]
        rw [Httpusd.transfer_from_to_used_nonces]
        exact hs2
      · rw [if_neg h5]
        exact hs2

/-- A successful `transfer_with_authorization` has committed the nonce:
the final registry is the initial one with the payload's key set to true. -/
lemma twa_ok_used (c : Chain) (t : Nat) (s : Httpusd) (fromA toA : AccountId)
    (amount vu : Nat) (nonce sig : List Nat)
    (hok : (Httpusd.transfer_with_authorization c t s fromA toA amount vu nonce sig).2 = .ok ()) :
    ((Httpusd.transfer_with_authorization c t s fromA toA amount vu nonce sig).1).used_nonces =
      Function.update s.used_nonces (Httpusd.compute_nonce_hash c fromA nonce) true := by
  by_cases h1 : vu < t
  · exfalso
    simp [Httpusd.transfer_with_authorization, if_pos h1] at hok
  by_cases h2 : s.used_nonces (Httpusd.compute_nonce_hash c fromA nonce) = true
  · exfalso
    simp [Httpusd.transfer_with_authorization, if_neg h1, if_pos h2] at hok
  by_cases h3 : verify_signature c fromA toA amount nonce vu sig = false
  · exfalso
    simp [Httpusd.transfer_with_authorization, if_neg h1, if_neg h2, if_pos h3] at hok
  by_cases h4 : amount = 0
  · exfalso
    simp [Httpusd.transfer_with_authorization, if_neg h1, if_neg h2, if_neg h3,
      if_pos h4] at hok
  cases hcf : compute_fee amount s.facilitator_fee_bps with
  | none =>
    exfalso
    simp [Httpusd.transfer_with_authorization, if_neg h1, if_neg h2, if_neg h3, if_neg h4,
      hcf] at hok
  | some p =>
    obtain ⟨fee, net⟩ := p
    rcases hft : Httpusd.transfer_from_to
        { s with used_nonces :=
            Function.update s.used_nonces (Httpusd.compute_nonce_hash c fromA nonce) true }
        fromA toA net with ⟨s2, r2⟩
    have hs2 : s2.used_nonces =
        Function.update s.used_nonces (Httpusd.compute_nonce_hash c fromA nonce) true := by
      have h := Httpusd.transfer_from_to_used_nonces
        { s with used_nonces :=
            Function.update s.used_nonces (Httpusd.compute_nonce_hash c fromA nonce) true }
        fromA toA net
      rw [hft] at h
      exact h
    cases r2 with
    | error e =>
      exfalso
      simp only [Httpusd.transfer_with_authorization, if_neg h1, if_neg h2, if_neg h3,
        if_neg h4, hcf, hft] at hok
      simp at hok
    | ok u =>
      simp only [Httpusd.transfer_with_authorization, if_neg h1, if_neg h2, if_neg h3,
        if_neg h4, hcf, hft]
      by_cases h5 : 0 < fee
      · rw [if_pos h5]
        rw [Httpusd.transfer_from_to_used_nonces]
        exact hs2
      · rw [if_neg h5]
        exact hs2


/-- The executor's nonce registry after `execute_payment` is either untouched
or has the payload's nonce key set to true. -/
lemma xep_used_nonces_cases (c : Chain) (t bn : Nat) (envT : AccountId → Nat → Bool)
    (s : X402PaymentExecutor) (fromA toA : AccountId) (amount : Nat)
    (nonce : List Nat) (vu : Nat) (sig : List Nat) :
    ((X402PaymentExecutor.execute_payment c t bn envT s fromA toA amount nonce vu sig).1).used_nonces =
      s.used_nonces ∨
    ((X402PaymentExecutor.execute_payment c t bn envT s fromA toA amount nonce vu sig).1).used_nonces =
      Function.update s.used_nonces (X402PaymentExecutor.compute_nonce_hash c fromA nonce) true := by
  by_cases h1 : vu < t
  · left
    simp [X402PaymentExecutor.execute_payment, if_pos h1]
  by_cases h2 : s.used_nonces (X402PaymentExecutor.compute_nonce_hash c fromA nonce) = true
  · left
    simp [X402PaymentExecutor.execute_payment, if_neg h1, if_pos h2]
  by_cases h3 : verify_signature c fromA toA amount nonce vu sig = false
  · left
    simp [X402PaymentExecutor.execute_payment, if_neg h1, if_neg h2, if_pos h3]
  by_cases h4 : amount = 0
  · left
    simp [X402PaymentExecutor.execute_payment, if_neg h1, if_neg h2, if_neg h3, if_pos h4]
  cases hcf : compute_fee amount s.facilitator_fee_bps with
  | none =>
    left
    simp [X402PaymentExecutor.execute_payment, if_neg h1, if_neg h2, if_neg h3, if_neg h4, hcf]
  | some p =>
    obtain ⟨fee, net⟩ := p
    right
    simp only [X402PaymentExecutor.execute_payment, if_neg h1, if_neg h2, if_neg h3,
      if_neg h4, hcf]
    by_cases h5 : envT toA net = false
    · rw [if_pos h5]
    · rw [if_neg h5]

/-- Claim C5: once a nonce key is marked used it stays used after every
state-mutating message of either contract — no operation resets a used-nonce
flag. -/
theorem c5_nonce_monotone :
    (∀ (c : Chain) (s : Httpusd) (op : Op) (k : List Nat),
      s.used_nonces k = true → (applyOp c s op).used_nonces k = true) ∧
    (∀ (c : Chain) (s : X402PaymentExecutor) (op : XOp) (k : List Nat),
      s.used_nonces k = true → (applyXOp c s op).used_nonces k = true) := by
  constructor
  · intro c s op k h
    cases op with
    | transferOp caller toA value =>
      simp only [applyOp, Httpusd.transfer, Httpusd.transfer_from_to_used_nonces]
      exact h
    | approveOp caller spender value =>
      exact h
    | transferFromOp caller fromA toA value =>
      simp only [applyOp, Httpusd.transfer_from]
      by_cases ha : Httpusd.allowance s fromA caller < value
      · rw [if_pos ha]
        exact h
      · rw [if_neg ha]
        rw [Httpusd.transfer_from_to_used_nonces]
        exact h
    | transferWithAuthorizationOp t fromA toA amount vu nonce sig =>
      simp only [applyOp]
      rcases twa_used_nonces_cases c t s fromA toA amount vu nonce sig with hc | hc
      · rw [hc]
        exact h
      · rw [hc]
        exact update_true_mono _ _ _ h
    | setFacilitatorFeeOp caller bps =>
      simp only [applyOp, Httpusd.set_facilitator_fee]
      by_cases hc : caller ≠ s.owner
      · rw [if_pos hc]
        exact h
      · rw [if_neg hc]
        exact h
  · intro c s op k h
    cases op with
    | executePaymentOp t bn envT fromA toA amount nonce vu sig =>
      simp only [applyXOp]
      rcases xep_used_nonces_cases c t bn envT s fromA toA amount nonce vu sig with hc | hc
      · rw [hc]
        exact h
      · rw [hc]
        exact update_true_mono _ _ _ h
    | setFacilitatorFeeOp caller bps =>
      simp only [applyXOp, X402PaymentExecutor.set_facilitator_fee]
      by_cases hc : caller ≠ s.owner
      · rw [if_pos hc]
        exact h
      · rw [if_neg hc]
        exact h

/-- Claim C5 witness: a used flag survives a concrete transfer in the token
contract and a concrete payment in the executor. -/
theorem c5_nonce_monotone_witness :
    ((⟨9, fun _ => 9, fun _ => 0, fun _ => true, [3], 100⟩ : Httpusd).used_nonces [0] = true ∧
      (applyOp chain0 ⟨9, fun _ => 9, fun _ => 0, fun _ => true, [3], 100⟩
        (.transferOp [1] [2] 4)).used_nonces [0] = true) ∧
    ((⟨fun _ => true, [3], 100⟩ : X402PaymentExecutor).used_nonces [0] = true ∧
      (applyXOp chain0 ⟨fun _ => true, [3], 100⟩
        (.setFacilitatorFeeOp [3] 7)).used_nonces [0] = true) :=
  ⟨⟨rfl, c5_nonce_monotone.1 chain0 ⟨9, fun _ => 9, fun _ => 0, fun _ => true, [3], 100⟩
      (.transferOp [1] [2] 4) [0] rfl⟩,
   ⟨rfl, c5_nonce_monotone.2 chain0 ⟨fun _ => true, [3], 100⟩
      (.setFacilitatorFeeOp [3] 7) [0] rfl⟩⟩

/-- Claim C2: if `transfer_with_authorization` succeeds on a payload, then
resubmitting the identical payload (same from, to, amount, nonce, validUntil,
signature) while still unexpired is rejected with `NonceAlreadyUsed` and
leaves the state unchanged — even though the signature still verifies. -/
theorem c2_replay (c : Chain) (t1 t2 : Nat) (s : Httpusd) (fromA toA : AccountId)
    (amount vu : Nat) (nonce sig : List Nat)
    (hok : (Httpusd.transfer_with_authorization c t1 s fromA toA amount vu nonce sig).2 = .ok ())
    (ht2 : t2 ≤ vu) :
    Httpusd.transfer_with_authorization c t2
        (Httpusd.transfer_with_authorization c t1 s fromA toA amount vu nonce sig).1
        fromA toA amount vu nonce sig =
      ((Httpusd.transfer_with_authorization c t1 s fromA toA amount vu nonce sig).1,
       .error .NonceAlreadyUsed) := by
  have hmark := twa_ok_used c t1 s fromA toA amount vu nonce sig hok
  have hused : ((Httpusd.transfer_with_authorization c t1 s fromA toA amount vu nonce sig).1).used_nonces
      (Httpusd.compute_nonce_hash c fromA nonce) = true := by
    rw [hmark]
    exact Function.update_same _ _ _
  generalize hg : (Httpusd.transfer_with_authorization c t1 s fromA toA amount vu nonce sig).1 = s1 at hused ⊢
  simp only [Httpusd.transfer_with_authorization]
  have h1 : ¬ (vu < t2) := by omega
  rw [if_neg h1, if_pos hused]

/-- Claim C2 witness: a concrete authorization succeeds once and its replay at
a later (still unexpired) time fails with `NonceAlreadyUsed`. -/
theorem c2_replay_witness :
    (Httpusd.transfer_with_authorization chain0 0
        ⟨10000, fun _ => 10000, fun _ => 0, fun _ => false, [3], 100⟩ [1] [2] 1000 10 [7]
        (List.replicate 64 0)).2 = .ok () ∧
    (5 : Nat) ≤ 10 ∧
    Httpusd.transfer_with_authorization chain0 5
        (Httpusd.transfer_with_authorization chain0 0
          ⟨10000, fun _ => 10000, fun _ => 0, fun _ => false, [3], 100⟩ [1] [2] 1000 10 [7]
          (List.replicate 64 0)).1 [1] [2] 1000 10 [7] (List.replicate 64 0) =
      ((Httpusd.transfer_with_authorization chain0 0
          ⟨10000, fun _ => 10000, fun _ => 0, fun _ => false, [3], 100⟩ [1] [2] 1000 10 [7]
          (List.replicate 64 0)).1, .error .NonceAlreadyUsed) :=
  ⟨rfl, by decide,
   c2_replay chain0 0 5 ⟨10000, fun _ => 10000, fun _ => 0, fun _ => false, [3], 100⟩
     [1] [2] 1000 10 [7] (List.replicate 64 0) rfl (by decide)⟩


/-- Claim C4 counterexample: in `httpusd.rs` a failing principal transfer
(balance 100 < net 1000, fee rate 0) terminates the pipeline with the
propagated `PSP22(InsufficientBalance)` — not `TransferFailed` — while the
nonce is left consumed. -/
theorem c4_counterexample :
    (Httpusd.transfer_with_authorization chain0 0
        ⟨100, fun a => if a = [1] then 100 else 0, fun _ => 0, fun _ => false, [3], 0⟩
        [1] [2] 1000 10 [7] (List.replicate 64 0)).2 =
      .error (.PSP22 .InsufficientBalance) ∧
    HError.PSP22 .InsufficientBalance ≠ HError.TransferFailed ∧
    Httpusd.is_nonce_used chain0
      (Httpusd.transfer_with_authorization chain0 0
        ⟨100, fun a => if a = [1] then 100 else 0, fun _ => 0, fun _ => false, [3], 0⟩
        [1] [2] 1000 10 [7] (List.replicate 64 0)).1 [1] [7] = true :=
  ⟨rfl, by decide, rfl⟩

/-- Claim C4 amended: when the principal transfer of step 7 fails inside the
authorization pipeline, the executor (`lib.rs`) terminates with
`TransferFailed`, while the token contract (`httpusd.rs`) terminates with the
principal transfer's own PSP22 error (`InsufficientBalance` when the payer
cannot cover the net amount); in both variants the nonce remains consumed and
`isNonceUsed(from, nonce)` is true afterwards. -/
theorem c4_amended :
    (∀ (c : Chain) (t bn : Nat) (envT : AccountId → Nat → Bool)
        (s : X402PaymentExecutor) (fromA toA : AccountId) (amount vu : Nat)
        (nonce sig : List Nat) (fee net : Nat), ¬ (vu < t) →
        s.used_nonces (X402PaymentExecutor.compute_nonce_hash c fromA nonce) = false →
        verify_signature c fromA toA amount nonce vu sig = true → amount ≠ 0 →
        compute_fee amount s.facilitator_fee_bps = some (fee, net) →
        envT toA net = false →
        X402PaymentExecutor.execute_payment c t bn envT s fromA toA amount nonce vu sig =
          ({ s with used_nonces := Function.update s.used_nonces (X402PaymentExecutor.compute_nonce_hash c fromA nonce) true },
           .error .TransferFailed) ∧
        X402PaymentExecutor.is_nonce_used c
          (X402PaymentExecutor.execute_payment c t bn envT s fromA toA amount nonce vu sig).1
          fromA nonce = true) ∧
    (∀ (c : Chain) (t : Nat) (s : Httpusd) (fromA toA : AccountId) (amount vu : Nat)
        (nonce sig : List Nat) (fee net : Nat), ¬ (vu < t) →
        s.used_nonces (Httpusd.compute_nonce_hash c fromA nonce) = false →
        verify_signature c fromA toA amount nonce vu sig = true → amount ≠ 0 →
        compute_fee amount s.facilitator_fee_bps = some (fee, net) →
        s.balances fromA < net →
        Httpusd.transfer_with_authorization c t s fromA toA amount vu nonce sig =
          ({ s with used_nonces := Function.update s.used_nonces (Httpusd.compute_nonce_hash c fromA nonce) true },
           .error (.PSP22 .InsufficientBalance)) ∧
        Httpusd.is_nonce_used c
          (Httpusd.transfer_with_authorization c t s fromA toA amount vu nonce sig).1
          fromA nonce = true) := by
  constructor
  · intro c t bn envT s fromA toA amount vu nonce sig fee net h1 h2 h3 h4 hcf henv
    have hu : ¬ (s.used_nonces (X402PaymentExecutor.compute_nonce_hash c fromA nonce) = true) := by
      simp [h2]
    have hv : ¬ (verify_signature c fromA toA amount nonce vu sig = false) := by
      simp [h3]
    have heq : X402PaymentExecutor.execute_payment c t bn envT s fromA toA amount nonce vu sig =
        ({ s with used_nonces := Function.update s.used_nonces (X402PaymentExecutor.compute_nonce_hash c fromA nonce) true },
         .error .TransferFailed) := by
      simp only [X402PaymentExecutor.execute_payment, if_neg h1, if_neg hu, if_neg hv,
        if_neg h4, hcf]
      rw [if_pos henv]
    refine ⟨heq, ?_⟩
    rw [heq]
    simp [X402PaymentExecutor.is_nonce_used, Function.update_same]
  · intro c t s fromA toA amount vu nonce sig fee net h1 h2 h3 h4 hcf hbal
    have hu : ¬ (s.used_nonces (Httpusd.compute_nonce_hash c fromA nonce) = true) := by
      simp [h2]
    have hv : ¬ (verify_signature c fromA toA amount nonce vu sig = false) := by
      simp [h3]
    have hft : Httpusd.transfer_from_to
        { s with used_nonces := Function.update s.used_nonces (Httpusd.compute_nonce_hash c fromA nonce) true } fromA toA net =
        ({ s with used_nonces := Function.update s.used_nonces (Httpusd.compute_nonce_hash c fromA nonce) true },
         .error (.PSP22 .InsufficientBalance)) := by
      have hc : Httpusd.balance_of
          { s with used_nonces := Function.update s.used_nonces (Httpusd.compute_nonce_hash c fromA nonce) true } fromA < net := hbal
      simp only [Httpusd.transfer_from_to, if_pos hc]
    have heq : Httpusd.transfer_with_authorization c t s fromA toA amount vu nonce sig =
        ({ s with used_nonces := Function.update s.used_nonces (Httpusd.compute_nonce_hash c fromA nonce) true },
         .error (.PSP22 .InsufficientBalance)) := by
      simp only [Httpusd.transfer_with_authorization, if_neg h1, if_neg hu, if_neg hv,
        if_neg h4, hcf, hft]
    refine ⟨heq, ?_⟩
    rw [heq]
    simp [Httpusd.is_nonce_used, Function.update_same]

/-- Claim C4 witness: concrete failing principal transfers in both contracts,
with the nonce consumed afterwards. -/
theorem c4_amended_witness :
    (X402PaymentExecutor.execute_payment chain0 0 1 (fun _ _ => false)
        ⟨fun _ => false, [3], 0⟩ [1] [2] 1000 [7] 10 (List.replicate 64 0) =
      (⟨Function.update (fun _ => false) (X402PaymentExecutor.compute_nonce_hash chain0 [1] [7]) true, [3], 0⟩,
       .error .TransferFailed)) ∧
    (Httpusd.transfer_with_authorization chain0 0
        ⟨100, fun a => if a = [1] then 100 else 0, fun _ => 0, fun _ => false, [3], 0⟩
        [1] [2] 1000 10 [7] (List.replicate 64 0) =
      ({ (⟨100, fun a => if a = [1] then 100 else 0, fun _ => 0, fun _ => false, [3], 0⟩ : Httpusd) with used_nonces := Function.update (fun _ => false) (Httpusd.compute_nonce_hash chain0 [1] [7]) true },
       .error (.PSP22 .InsufficientBalance))) :=
  ⟨(c4_amended.1 chain0 0 1 (fun _ _ => false) ⟨fun _ => false, [3], 0⟩ [1] [2] 1000 10
      [7] (List.replicate 64 0) 0 1000 (by omega) rfl rfl (by omega) rfl rfl).1,
   (c4_amended.2 chain0 0
      ⟨100, fun a => if a = [1] then 100 else 0, fun _ => 0, fun _ => false, [3], 0⟩
      [1] [2] 1000 10 [7] (List.replicate 64 0) 0 1000 (by omega) rfl rfl (by omega) rfl
      (by decide)).1⟩


/-- Success shape of the full `transfer_with_authorization` pipeline: with an
unexpired payload, fresh nonce, valid signature, positive amount, a fee rate
at most 10000 bps, `from` covering the full amount, pairwise-distinct payer,
recipient and facilitator, and both credits fitting in `u128`, the call
returns `Ok` and the final balance map is the initial one with `from` debited
by `amount`, `to` credited with the net amount and the owner credited with the
fee. -/
lemma twa_success (c : Chain) (t : Nat) (s : Httpusd) (fromA toA : AccountId)
    (amount vu : Nat) (nonce sig : List Nat)
    (h1 : ¬ (vu < t))
    (h2 : s.used_nonces (Httpusd.compute_nonce_hash c fromA nonce) = false)
    (h3 : verify_signature c fromA toA amount nonce vu sig = true)
    (h4 : amount ≠ 0)
    (hbps : s.facilitator_fee_bps ≤ 10000)
    (hmul : amount * s.facilitator_fee_bps ≤ U128_MAX)
    (hbal : amount ≤ s.balances fromA)
    (hfta : fromA ≠ toA) (hfo : fromA ≠ s.owner) (hto : toA ≠ s.owner)
    (hcap1 : s.balances toA + amount ≤ U128_MAX)
    (hcap2 : s.balances s.owner + amount ≤ U128_MAX) :
    (Httpusd.transfer_with_authorization c t s fromA toA amount vu nonce sig).2 = .ok () ∧
    ((Httpusd.transfer_with_authorization c t s fromA toA amount vu nonce sig).1).balances =
      fun a => if a = s.owner then s.balances s.owner + amount * s.facilitator_fee_bps / 10000
        else if a = toA then s.balances toA + (amount - amount * s.facilitator_fee_bps / 10000)
        else if a = fromA then s.balances fromA - amount
        else s.balances a := by
  have hu : ¬ (s.used_nonces (Httpusd.compute_nonce_hash c fromA nonce) = true) := by
    simp [h2]
  have hv : ¬ (verify_signature c fromA toA amount nonce vu sig = false) := by
    simp [h3]
  have hfee : amount * s.facilitator_fee_bps / 10000 ≤ amount :=
    fee_le_of_bps_le amount s.facilitator_fee_bps hbps
  have hcf := compute_fee_some amount s.facilitator_fee_bps hmul hfee
  have hft1 := Httpusd.transfer_from_to_ok
    { s with used_nonces := Function.update s.used_nonces (Httpusd.compute_nonce_hash c fromA nonce) true }
    fromA toA (amount - amount * s.facilitator_fee_bps / 10000)
    (by show amount - amount * s.facilitator_fee_bps / 10000 ≤ s.balances fromA; omega)
    (Ne.symm hfta)
    (by show s.balances toA + (amount - amount * s.facilitator_fee_bps / 10000) ≤ U128_MAX; omega)
  simp only [Httpusd.transfer_with_authorization, if_neg h1, if_neg hu, if_neg hv,
    if_neg h4, hcf, hft1]
  by_cases h5 : 0 < amount * s.facilitator_fee_bps / 10000
  · rw [if_pos h5]
    have e1 : Function.update (Function.update s.balances fromA (s.balances fromA - (amount - amount * s.facilitator_fee_bps / 10000))) toA (s.balances toA + (amount - amount * s.facilitator_fee_bps / 10000)) fromA = s.balances fromA - (amount - amount * s.facilitator_fee_bps / 10000) := by
      rw [Function.update_noteq hfta, Function.update_same]
    have e2 : Function.update (Function.update s.balances fromA (s.balances fromA - (amount - amount * s.facilitator_fee_bps / 10000))) toA (s.balances toA + (amount - amount * s.facilitator_fee_bps / 10000)) s.owner = s.balances s.owner := by
      rw [Function.update_noteq (Ne.symm hto), Function.update_noteq (Ne.symm hfo)]
    have hft2 := Httpusd.transfer_from_to_ok
      { s with used_nonces := Function.update s.used_nonces (Httpusd.compute_nonce_hash c fromA nonce) true,
               balances := Function.update (Function.update s.balances fromA (s.balances fromA - (amount - amount * s.facilitator_fee_bps / 10000))) toA (s.balances toA + (amount - amount * s.facilitator_fee_bps / 10000)) }
      fromA s.owner (amount * s.facilitator_fee_bps / 10000)
      (by show amount * s.facilitator_fee_bps / 10000 ≤ Function.update (Function.update s.balances fromA (s.balances fromA - (amount - amount * s.facilitator_fee_bps / 10000))) toA (s.balances toA + (amount - amount * s.facilitator_fee_bps / 10000)) fromA; rw [e1]; omega)
      (Ne.symm hfo)
      (by show Function.update (Function.update s.balances fromA (s.balances fromA - (amount - amount * s.facilitator_fee_bps / 10000))) toA (s.balances toA + (amount - amount * s.facilitator_fee_bps / 10000)) s.owner + amount * s.facilitator_fee_bps / 10000 ≤ U128_MAX; rw [e2]; omega)
    refine ⟨?_, ?_⟩
    · rw [hft2]
    · rw [hft2]
      funext a
      simp only [Function.update_apply]
      by_cases hao : a = s.owner
      · subst hao
        simp [Ne.symm hfo, Ne.symm hto, e2]
      · by_cases hat : a = toA
        · subst hat
          simp [hao, Ne.symm hfta]
        · by_cases haf : a = fromA
          · subst haf
            simp [hfo, hfta, hao]
            omega
          · simp [hao, hat, haf]
  · rw [if_neg h5]
    have hf0 : amount * s.facilitator_fee_bps / 10000 = 0 := by omega
    refine ⟨rfl, ?_⟩
    funext a
    simp only [Function.update_apply]
    by_cases hao : a = s.owner
    · subst hao
      simp [Ne.symm hfo, Ne.symm hto, hf0]
    · by_cases hat : a = toA
      · subst hat
        simp [hao]
      · by_cases haf : a = fromA
        · subst haf
          simp [hfo, hfta, hao, hf0]
        · simp [hao, hat, haf]


/-- Claim C1 counterexample: a valid, unexpired, correctly signed, fresh-nonce
payload with `amount = 1000 > 0` (fee 10, net 990) is processed — the call
returns `Ok` — yet the payer, holding 995, is debited only the net 990
(995 to 5, not a decrease of `amount`) and the facilitator receives nothing
instead of the fee 10, because the step-8 fee transfer fails silently. -/
theorem c1_counterexample :
    (Httpusd.transfer_with_authorization chain0 0
        ⟨995, fun a => if a = [1] then 995 else 0, fun _ => 0, fun _ => false, [3], 100⟩
        [1] [2] 1000 10 [7] (List.replicate 64 0)).2 = .ok () ∧
    compute_fee 1000 100 = some (10, 990) ∧
    (Httpusd.transfer_with_authorization chain0 0
        ⟨995, fun a => if a = [1] then 995 else 0, fun _ => 0, fun _ => false, [3], 100⟩
        [1] [2] 1000 10 [7] (List.replicate 64 0)).1.balances [1] = 5 ∧
    (Httpusd.transfer_with_authorization chain0 0
        ⟨995, fun a => if a = [1] then 995 else 0, fun _ => 0, fun _ => false, [3], 100⟩
        [1] [2] 1000 10 [7] (List.replicate 64 0)).1.balances [3] = 0 :=
  ⟨rfl, rfl, rfl, rfl⟩

/-- Claim C1 amended: for every unexpired, correctly signed, fresh-nonce
payload with `amount > 0` where additionally the payer's balance covers the
full `amount`, payer, recipient and facilitator are pairwise distinct, the fee
rate is at most 10000 bps, and the credited balances fit in `u128`:
`transfer_with_authorization` returns `Ok`, `balanceOf(from)` decreases by
exactly `amount`, `balanceOf(to)` increases by exactly `amount - fee`,
`balanceOf(facilitator)` increases by exactly `fee`, every other balance is
unchanged, and the sum of balances over any finite account set containing the
three parties is unchanged. -/
theorem c1_amended (c : Chain) (t : Nat) (s : Httpusd) (fromA toA : AccountId)
    (amount vu : Nat) (nonce sig : List Nat)
    (h1 : ¬ (vu < t))
    (h2 : s.used_nonces (Httpusd.compute_nonce_hash c fromA nonce) = false)
    (h3 : verify_signature c fromA toA amount nonce vu sig = true)
    (h4 : amount ≠ 0)
    (hbps : s.facilitator_fee_bps ≤ 10000)
    (hmul : amount * s.facilitator_fee_bps ≤ U128_MAX)
    (hbal : amount ≤ s.balances fromA)
    (hfta : fromA ≠ toA) (hfo : fromA ≠ s.owner) (hto : toA ≠ s.owner)
    (hcap1 : s.balances toA + amount ≤ U128_MAX)
    (hcap2 : s.balances s.owner + amount ≤ U128_MAX) :
    (Httpusd.transfer_with_authorization c t s fromA toA amount vu nonce sig).2 = .ok () ∧
    Httpusd.balance_of (Httpusd.transfer_with_authorization c t s fromA toA amount vu nonce sig).1 fromA =
      Httpusd.balance_of s fromA - amount ∧
    Httpusd.balance_of (Httpusd.transfer_with_authorization c t s fromA toA amount vu nonce sig).1 toA =
      Httpusd.balance_of s toA + (amount - amount * s.facilitator_fee_bps / 10000) ∧
    Httpusd.balance_of (Httpusd.transfer_with_authorization c t s fromA toA amount vu nonce sig).1 s.owner =
      Httpusd.balance_of s s.owner + amount * s.facilitator_fee_bps / 10000 ∧
    (∀ a : AccountId, a ≠ fromA → a ≠ toA → a ≠ s.owner →
      Httpusd.balance_of (Httpusd.transfer_with_authorization c t s fromA toA amount vu nonce sig).1 a =
        Httpusd.balance_of s a) ∧
    (∀ S : Finset AccountId, fromA ∈ S → toA ∈ S → s.owner ∈ S →
      Finset.sum S ((Httpusd.transfer_with_authorization c t s fromA toA amount vu nonce sig).1).balances =
        Finset.sum S s.balances) := by
  obtain ⟨hok, hmap⟩ := twa_success c t s fromA toA amount vu nonce sig h1 h2 h3 h4 hbps
    hmul hbal hfta hfo hto hcap1 hcap2
  have hfee : amount * s.facilitator_fee_bps / 10000 ≤ amount :=
    fee_le_of_bps_le amount s.facilitator_fee_bps hbps
  have hmf : ((Httpusd.transfer_with_authorization c t s fromA toA amount vu nonce sig).1).balances fromA =
      s.balances fromA - amount := by
    rw [hmap]
    simp [hfo, hfta]
  have hmt : ((Httpusd.transfer_with_authorization c t s fromA toA amount vu nonce sig).1).balances toA =
      s.balances toA + (amount - amount * s.facilitator_fee_bps / 10000) := by
    rw [hmap]
    simp [hto]
  have hmo : ((Httpusd.transfer_with_authorization c t s fromA toA amount vu nonce sig).1).balances s.owner =
      s.balances s.owner + amount * s.facilitator_fee_bps / 10000 := by
    rw [hmap]
    simp
  refine ⟨hok, hmf, hmt, hmo, ?_, ?_⟩
  · intro a haf hat hao
    show ((Httpusd.transfer_with_authorization c t s fromA toA amount vu nonce sig).1).balances a = s.balances a
    rw [hmap]
    simp [hao, hat, haf]
  · intro S hS1 hS2 hS3
    refine sum_eq_of_three_frame s.balances _ fromA toA s.owner hfta hfo hto ?_ ?_ S hS1 hS2 hS3
    · intro a haf hat hao
      rw [hmap]
      simp [hao, hat, haf]
    · rw [hmf, hmt, hmo]
      omega

/-- Claim C1 witness: a concrete fully-covered authorization — payer balance
10000, amount 1000, fee rate 100 bps — debits the payer 1000, credits the
recipient 990 and credits the facilitator 10. -/
theorem c1_amended_witness :
    (Httpusd.transfer_with_authorization chain0 0
        ⟨30000, fun _ => 10000, fun _ => 0, fun _ => false, [3], 100⟩
        [1] [2] 1000 10 [7] (List.replicate 64 0)).2 = .ok () ∧
    Httpusd.balance_of (Httpusd.transfer_with_authorization chain0 0
        ⟨30000, fun _ => 10000, fun _ => 0, fun _ => false, [3], 100⟩
        [1] [2] 1000 10 [7] (List.replicate 64 0)).1 [1] = 10000 - 1000 ∧
    Httpusd.balance_of (Httpusd.transfer_with_authorization chain0 0
        ⟨30000, fun _ => 10000, fun _ => 0, fun _ => false, [3], 100⟩
        [1] [2] 1000 10 [7] (List.replicate 64 0)).1 [3] = 10000 + 1000 * 100 / 10000 :=
  ⟨(c1_amended chain0 0 ⟨30000, fun _ => 10000, fun _ => 0, fun _ => false, [3], 100⟩
      [1] [2] 1000 10 [7] (List.replicate 64 0) (by decide) rfl rfl (by decide) (by decide)
      (by decide) (by decide) (by decide) (by decide) (by decide) (by decide)
      (by decide)).1,
   (c1_amended chain0 0 ⟨30000, fun _ => 10000, fun _ => 0, fun _ => false, [3], 100⟩
      [1] [2] 1000 10 [7] (List.replicate 64 0) (by decide) rfl rfl (by decide) (by decide)
      (by decide) (by decide) (by decide) (by decide) (by decide) (by decide)
      (by decide)).2.1,
   (c1_amended chain0 0 ⟨30000, fun _ => 10000, fun _ => 0, fun _ => false, [3], 100⟩
      [1] [2] 1000 10 [7] (List.replicate 64 0) (by decide) rfl rfl (by decide) (by decide)
      (by decide) (by decide) (by decide) (by decide) (by decide) (by decide)
      (by decide)).2.2.2.1⟩

end Polkax402
